import Mathlib

/-!
Verification of the transfer ledger service (transfer.py).

The embedding models:
- the committed database state (the account table plus the append-only
  transfer table, transfers listed in commit order),
- the route handlers make_transfer and create_new_account, together with the
  helper create_user_and_transfer_funds, as functions over explicit snapshot
  states (one state argument per storage round-trip of the handler),
- concurrency as a reachability relation in which each storage read observes
  some earlier committed state of the linearized commit history.

Database-side behavior that is not part of src (the SQL schema and the
account_metadata SQL function) is modelled from the spec where noted.
-/

/-- Account identifiers (UUIDs) modelled as naturals. -/
abbrev AccountId := Nat

/-- The reserved all-zero service account (transfer.py line 215). -/
def SERVICE_ACCOUNT_ID : AccountId := 0

/-- A committed row of the transfer table: source, per-source index,
destination and amount; exact decimal amounts are modelled as integers. -/
structure Transfer where
  source : AccountId
  index : Nat
  destination : AccountId
  amount : Int
  deriving DecidableEq, Repr

/-- The committed database state: the account table and the transfer table,
transfers listed in commit order (the table is append-only). -/
structure LedgerState where
  accounts : Finset AccountId
  transfers : List Transfer
  deriving DecidableEq

/-- Contribution of one committed transfer row to the derived balance of
account a. -/
def transferDelta (a : AccountId) (t : Transfer) : Int :=
  (if t.destination = a then t.amount else 0) - (if t.source = a then t.amount else 0)

/-- Modelled from the spec: the SQL function account_metadata is not under
src; per the spec the balance of A is the sum of the amounts received by A
minus the sum of the amounts sent by A over the transfer log. -/
def balance (s : LedgerState) (a : AccountId) : Int :=
  (s.transfers.map (transferDelta a)).sum

/-- The outgoing transfers of an account, in commit order. -/
def outgoing (s : LedgerState) (a : AccountId) : List Transfer :=
  s.transfers.filter (fun t => t.source = a)

/-- Next free per-source index of a list of outgoing transfers:
1 + max(per_source_index), or 0 when none exist. -/
def nextIndexOf (l : List Transfer) : Nat :=
  l.foldr (fun t m => max (t.index + 1) m) 0

/-- Modelled from the spec: the next_transfer_index column returned by the
account_metadata SQL function; 1 + max(per_source_index for source = A),
or 0 when A has no outgoing transfers. -/
def nextIndex (s : LedgerState) (a : AccountId) : Nat :=
  nextIndexOf (outgoing s a)

/-- Modelled from the spec: the storage uniqueness constraint on
(source, index); true when that pair is already present in the transfer
table, in which case an INSERT of the pair raises. -/
def indexTaken (s : LedgerState) (src : AccountId) (idx : Nat) : Bool :=
  s.transfers.any (fun t => t.source == src && t.index == idx)

/-- Append one committed transfer row (INSERT INTO transfer, insert_transfer,
transfer.py lines 96-105). -/
def appendTransfer (s : LedgerState) (t : Transfer) : LedgerState :=
  { s with transfers := s.transfers ++ [t] }

/-- Insert one account row (INSERT INTO account, insert_account,
transfer.py lines 79-84). -/
def addAccount (s : LedgerState) (a : AccountId) : LedgerState :=
  { s with accounts := insert a s.accounts }

/-- The request body of POST /transfers (TransferRequest). -/
structure TransferRequest where
  source : AccountId
  destination : AccountId
  amount : Int
  deriving DecidableEq, Repr

/-- The response body of a successful POST /transfers (TransferResult). -/
structure TransferResult where
  source_balance : Int
  destination_balance : Int
  deriving DecidableEq, Repr

/-- The failure kinds of make_transfer: the six BadRequest rejections raised
by the handler, plus the internal (HTTP 500) outcome produced by the generic
exception handler when the INSERT raises a uniqueness violation. -/
inductive TransferError where
  | invalidAmount
  | serviceAccountAsSource
  | selfTransfer
  | destinationNotFound
  | sourceNotFound
  | insufficientFunds
  | internalError
  deriving DecidableEq, Repr

/-- The outcome of a POST /transfers call. -/
inductive TransferOutcome where
  | ok (res : TransferResult)
  | err (e : TransferError)
  deriving DecidableEq, Repr

/-- The make_transfer route handler (transfer.py lines 309-346), its storage
round-trips made explicit: sd is the committed state observed by the
destination existence check, ss the state observed by the source metadata
fetch, and sc the state at the INSERT. A uniqueness violation on
(source, index) raises in the driver and surfaces through the generic
exception handler as an internal error. The returned pair is the resulting
committed state and the HTTP outcome; on success the two post-commit
metadata reads at the commit timestamp produce the TransferResult body. -/
def make_transfer (sd ss sc : LedgerState) (r : TransferRequest) :
    LedgerState × TransferOutcome :=
  if r.amount ≤ 0 then (sc, .err .invalidAmount)
  else if r.source = SERVICE_ACCOUNT_ID then (sc, .err .serviceAccountAsSource)
  else if r.source = r.destination then (sc, .err .selfTransfer)
  else if r.destination ∉ sd.accounts then (sc, .err .destinationNotFound)
  else if r.source ∉ ss.accounts then (sc, .err .sourceNotFound)
  else if balance ss r.source < r.amount then (sc, .err .insufficientFunds)
  else if indexTaken sc r.source (nextIndex ss r.source) then (sc, .err .internalError)
  else
    let s1 := appendTransfer sc
      { source := r.source, index := nextIndex ss r.source,
        destination := r.destination, amount := r.amount }
    (s1, .ok { source_balance := balance s1 r.source,
               destination_balance := balance s1 r.destination })

/-- The failure kinds of account provisioning: the two BadRequest rejections
of create_new_account, plus the internal outcome when a constraint violation
inside the transaction raises. -/
inductive CreateError where
  | negativeBalance
  | alreadyExists
  | internalError
  deriving DecidableEq, Repr

/-- The request and response body of POST /accounts (AccountBalance). -/
structure AccountBalance where
  account_id : AccountId
  balance : Int
  deriving DecidableEq, Repr

/-- The outcome of a POST /accounts call. -/
inductive CreateOutcome where
  | ok (res : AccountBalance)
  | err (e : CreateError)
  deriving DecidableEq, Repr

/-- create_user_and_transfer_funds (transfer.py lines 227-241): inside one
database transaction, insert the account row and, when the initial amount is
positive, the seeding transfer from the service account at the next index
taken from the service account metadata snapshot sSvc (read via the pool,
outside the transaction); sc is the committed state the transaction commits
against. A constraint violation (duplicate account id, or a taken
(service, index) pair) raises and rolls the whole transaction back, leaving
the committed state unchanged. -/
def create_user_and_transfer_funds (sSvc sc : LedgerState) (aid : AccountId)
    (amount : Int) : LedgerState × Option CreateError :=
  if aid ∈ sc.accounts then (sc, some .internalError)
  else if 0 < amount then
    if indexTaken sc SERVICE_ACCOUNT_ID (nextIndex sSvc SERVICE_ACCOUNT_ID) then
      (sc, some .internalError)
    else
      (appendTransfer (addAccount sc aid)
        { source := SERVICE_ACCOUNT_ID, index := nextIndex sSvc SERVICE_ACCOUNT_ID,
          destination := aid, amount := amount }, none)
  else (addAccount sc aid, none)

/-- The create_new_account route handler (transfer.py lines 244-261): sExist
is the state observed by the existence pre-check, sSvc by the service account
metadata fetch, sc by the transaction; on success the new account balance is
read back at the returned timestamp and echoed in the response body. -/
def create_new_account (sExist sSvc sc : LedgerState) (aid : AccountId)
    (bal : Int) : LedgerState × CreateOutcome :=
  if bal < 0 then (sc, .err .negativeBalance)
  else if aid ∈ sExist.accounts then (sc, .err .alreadyExists)
  else
    match create_user_and_transfer_funds sSvc sc aid bal with
    | (s1, none) => (s1, .ok { account_id := aid, balance := balance s1 aid })
    | (s1, some e) => (s1, .err e)

/-- s1 is an earlier committed state of the linearized history leading to s2:
accounts only grow and the transfer table is append-only, so every state a
storage read can observe is related to every later commit state this way. -/
def SnapshotOf (s1 s2 : LedgerState) : Prop :=
  s1.accounts ⊆ s2.accounts ∧ ∃ rest, s2.transfers = s1.transfers ++ rest

/-- A fresh database: only the reserved service account, no transfers. -/
def initialState : LedgerState :=
  { accounts := {SERVICE_ACCOUNT_ID}, transfers := [] }

/-- Reachable committed states: any interleaving of concurrent provisioning
and transfer operations, each storage read of an operation observing some
earlier committed snapshot of the history. -/
inductive Reach : LedgerState → Prop where
  | init : Reach initialState
  | create {s sSvc : LedgerState} {aid : AccountId} {amt : Int} :
      Reach s → Reach sSvc → SnapshotOf sSvc s →
      Reach (create_user_and_transfer_funds sSvc s aid amt).1
  | xfer {s sd ss : LedgerState} {r : TransferRequest} :
      Reach s → Reach sd → Reach ss → SnapshotOf sd s → SnapshotOf ss s →
      Reach (make_transfer sd ss s r).1

/-- Gapless per-source indexes: for every account the committed outgoing
transfers carry the indexes 0, 1, ..., n-1 in commit order. -/
def GaplessIndexes (s : LedgerState) : Prop :=
  ∀ a, (outgoing s a).map Transfer.index = List.range (outgoing s a).length

/-- Every committed transfer is between two distinct existing accounts and
moves a strictly positive amount. -/
def WellFormed (s : LedgerState) : Prop :=
  ∀ t ∈ s.transfers,
    t.source ∈ s.accounts ∧ t.destination ∈ s.accounts ∧
    t.source ≠ t.destination ∧ 0 < t.amount

/-- The inductive invariant of reachable committed states. -/
structure LedgerInv (s : LedgerState) : Prop where
  nonneg : ∀ a, a ≠ SERVICE_ACCOUNT_ID → 0 ≤ balance s a
  gapless : GaplessIndexes s
  wf : WellFormed s
  svcMem : SERVICE_ACCOUNT_ID ∈ s.accounts

/-- A committed history: the service account seeded account 1 with 100. -/
def st1 : LedgerState :=
  (create_user_and_transfer_funds initialState initialState 1 100).1

/-- The same history continued: account 2 created with balance 0. -/
def st2 : LedgerState :=
  (create_user_and_transfer_funds initialState st1 2 0).1

/-- The same history continued: 30 transferred from account 1 to account 2. -/
def st3 : LedgerState :=
  (make_transfer st2 st2 st2 { source := 1, destination := 2, amount := 30 }).1

/-- A concurrent committer has taken index 0 of account 1 on top of st2. -/
def stConf : LedgerState :=
  appendTransfer st2 { source := 1, index := 0, destination := 2, amount := 10 }

@[simp] theorem addAccount_transfers (s : LedgerState) (x : AccountId) :
    (addAccount s x).transfers = s.transfers := rfl

@[simp] theorem addAccount_accounts (s : LedgerState) (x : AccountId) :
    (addAccount s x).accounts = insert x s.accounts := rfl

@[simp] theorem appendTransfer_accounts (s : LedgerState) (t : Transfer) :
    (appendTransfer s t).accounts = s.accounts := rfl

@[simp] theorem appendTransfer_transfers (s : LedgerState) (t : Transfer) :
    (appendTransfer s t).transfers = s.transfers ++ [t] := rfl

theorem balance_appendTransfer (s : LedgerState) (t : Transfer) (a : AccountId) :
    balance (appendTransfer s t) a = balance s a + transferDelta a t := by
  simp [balance, appendTransfer]

theorem outgoing_appendTransfer (s : LedgerState) (t : Transfer) (a : AccountId) :
    outgoing (appendTransfer s t) a =
      outgoing s a ++ if t.source = a then [t] else [] := by
  by_cases h : t.source = a <;>
    simp [outgoing, appendTransfer, List.filter_append, h]

theorem lt_nextIndexOf {t : Transfer} {l : List Transfer} (h : t ∈ l) :
    t.index < nextIndexOf l := by
  induction l with
  | nil => cases h
  | cons x xs ih =>
    cases h with
    | head =>
      exact Nat.lt_of_lt_of_le (Nat.lt_succ_self _) (Nat.le_max_left _ _)
    | tail _ hmem =>
      exact Nat.lt_of_lt_of_le (ih hmem) (Nat.le_max_right _ _)

theorem foldr_max_range_le (n : Nat) :
    ∀ c, n ≤ c → (List.range n).foldr (fun i m => max (i + 1) m) c = c := by
  induction n with
  | zero => intro c _; rfl
  | succ k ih =>
    intro c hc
    rw [List.range_succ, List.foldr_append]
    simp only [List.foldr_cons, List.foldr_nil]
    rw [max_eq_right hc]
    exact ih c (Nat.le_of_succ_le hc)

theorem foldr_max_range (n : Nat) :
    (List.range n).foldr (fun i m => max (i + 1) m) 0 = n := by
  cases n with
  | zero => rfl
  | succ k =>
    rw [List.range_succ, List.foldr_append]
    simp only [List.foldr_cons, List.foldr_nil]
    rw [max_eq_left (Nat.zero_le _)]
    exact foldr_max_range_le k (k + 1) (Nat.le_succ k)

theorem nextIndexOf_eq_length {l : List Transfer}
    (h : l.map Transfer.index = List.range l.length) :
    nextIndexOf l = l.length := by
  have h1 : nextIndexOf l =
      (l.map Transfer.index).foldr (fun i m => max (i + 1) m) 0 := by
    rw [List.foldr_map]
    rfl
  rw [h1, h, foldr_max_range]

theorem indexTaken_eq_true_iff {s : LedgerState} {src : AccountId} {idx : Nat} :
    indexTaken s src idx = true ↔
      ∃ t ∈ s.transfers, t.source = src ∧ t.index = idx := by
  simp [indexTaken, List.any_eq_true, Bool.and_eq_true, beq_iff_eq]

theorem indexTaken_nextIndex_self (s : LedgerState) (a : AccountId) :
    indexTaken s a (nextIndex s a) = false := by
  cases hB : indexTaken s a (nextIndex s a) with
  | false => rfl
  | true =>
    exfalso
    obtain ⟨t, htm, hts, hti⟩ := indexTaken_eq_true_iff.mp hB
    have htf : t ∈ outgoing s a := List.mem_filter.mpr ⟨htm, by simp [hts]⟩
    have hlt : t.index < nextIndex s a := lt_nextIndexOf htf
    omega

theorem snapshotOf_refl (s : LedgerState) : SnapshotOf s s :=
  ⟨Finset.Subset.refl _, [], by simp⟩

theorem snapshotOf_addAccount {s1 s2 : LedgerState} {a : AccountId}
    (h : SnapshotOf s1 s2) : SnapshotOf s1 (addAccount s2 a) := by
  obtain ⟨hsub, rest, hrest⟩ := h
  exact ⟨hsub.trans (Finset.subset_insert a s2.accounts), rest, hrest⟩

theorem outgoing_snapshot {s1 s2 : LedgerState} (a : AccountId)
    (rest : List Transfer) (h : s2.transfers = s1.transfers ++ rest) :
    outgoing s2 a = outgoing s1 a ++ rest.filter (fun t => t.source = a) := by
  simp [outgoing, h, List.filter_append]

theorem commit_filter_nil {s1 s2 : LedgerState} {src : AccountId}
    (rest : List Transfer) (hrest : s2.transfers = s1.transfers ++ rest)
    (hg1 : GaplessIndexes s1) (hg2 : GaplessIndexes s2)
    (hfree : indexTaken s2 src (nextIndex s1 src) = false) :
    rest.filter (fun t => t.source = src) = [] := by
  have hout : outgoing s2 src =
      outgoing s1 src ++ rest.filter (fun t => t.source = src) :=
    outgoing_snapshot src rest hrest
  have hni : nextIndex s1 src = (outgoing s1 src).length :=
    nextIndexOf_eq_length (hg1 src)
  rcases Nat.lt_or_ge (outgoing s1 src).length (outgoing s2 src).length with hlt | hge
  · exfalso
    have hmem : (outgoing s1 src).length ∈ (outgoing s2 src).map Transfer.index := by
      rw [hg2 src]
      exact List.mem_range.mpr hlt
    obtain ⟨t, htmem, htidx⟩ := List.mem_map.mp hmem
    have htf := List.mem_filter.mp htmem
    have htaken : indexTaken s2 src (nextIndex s1 src) = true := by
      refine indexTaken_eq_true_iff.mpr ⟨t, htf.1, ?_, ?_⟩
      · simpa using htf.2
      · rw [hni]; exact htidx
    rw [htaken] at hfree
    cases hfree
  · have hlen := congrArg List.length hout
    rw [List.length_append] at hlen
    have hz : (rest.filter (fun t => t.source = src)).length = 0 := by omega
    exact List.length_eq_zero.mp hz

theorem balance_snapshot_le {s1 s2 : LedgerState} {src : AccountId}
    (rest : List Transfer) (hrest : s2.transfers = s1.transfers ++ rest)
    (hnosrc : ∀ t ∈ rest, t.source ≠ src)
    (hpos : ∀ t ∈ rest, 0 < t.amount) :
    balance s1 src ≤ balance s2 src := by
  have hb : balance s2 src =
      balance s1 src + (rest.map (transferDelta src)).sum := by
    simp [balance, hrest, List.map_append, List.sum_append]
  rw [hb]
  have hnn : 0 ≤ (rest.map (transferDelta src)).sum := by
    apply List.sum_nonneg
    intro x hx
    obtain ⟨t, ht, rfl⟩ := List.mem_map.mp hx
    have h1 := hnosrc t ht
    have h2 := hpos t ht
    by_cases hd : t.destination = src
    · simp [transferDelta, hd, h1]
      omega
    · simp [transferDelta, hd, h1]
  omega

theorem ledgerInv_addAccount {s : LedgerState} {a : AccountId}
    (h : LedgerInv s) : LedgerInv (addAccount s a) := by
  obtain ⟨h1, h2, h3, h4⟩ := h
  refine ⟨h1, h2, ?_, Finset.mem_insert_of_mem h4⟩
  intro t ht
  obtain ⟨hs, hd, hne, hpos⟩ := h3 t ht
  exact ⟨Finset.mem_insert_of_mem hs, Finset.mem_insert_of_mem hd, hne, hpos⟩

theorem ledgerInv_append_step {sRead s : LedgerState} {src dst : AccountId} {amt : Int}
    (hinv : LedgerInv s) (hinvR : LedgerInv sRead) (hsnap : SnapshotOf sRead s)
    (hsrc : src ∈ s.accounts) (hdst : dst ∈ s.accounts)
    (hne : src ≠ dst) (hamt : 0 < amt)
    (hbal : src = SERVICE_ACCOUNT_ID ∨ amt ≤ balance sRead src)
    (hfree : indexTaken s src (nextIndex sRead src) = false) :
    LedgerInv (appendTransfer s
      { source := src, index := nextIndex sRead src,
        destination := dst, amount := amt }) := by
  obtain ⟨hnn, hgap, hwf, hsvc⟩ := hinv
  obtain ⟨hnnR, hgapR, hwfR, hsvcR⟩ := hinvR
  obtain ⟨hsub, rest, hrest⟩ := hsnap
  have hnil : rest.filter (fun t => t.source = src) = [] :=
    commit_filter_nil rest hrest hgapR hgap hfree
  have hout : outgoing s src = outgoing sRead src := by
    rw [outgoing_snapshot src rest hrest, hnil, List.append_nil]
  have hidx : nextIndex sRead src = (outgoing s src).length := by
    rw [hout]
    exact nextIndexOf_eq_length (hgapR src)
  have hnosrc : ∀ t ∈ rest, t.source ≠ src := by
    intro t ht
    have hf := List.filter_eq_nil_iff.mp hnil t ht
    simpa using hf
  have hpos : ∀ t ∈ rest, 0 < t.amount := by
    intro t ht
    have htm : t ∈ s.transfers := by
      rw [hrest]
      exact List.mem_append_right _ ht
    exact (hwf t htm).2.2.2
  have hble : balance sRead src ≤ balance s src :=
    balance_snapshot_le rest hrest hnosrc hpos
  refine ⟨?_, ?_, ?_, hsvc⟩
  · intro a ha
    rw [balance_appendTransfer]
    by_cases has : a = src
    · subst has
      rcases hbal with hb | hb
      · exact absurd hb ha
      · have hdne : dst ≠ a := Ne.symm hne
        have hdelta : transferDelta a
            { source := a, index := nextIndex sRead a,
              destination := dst, amount := amt } = -amt := by
          simp [transferDelta, hdne]
        rw [hdelta]
        omega
    · by_cases had : a = dst
      · subst had
        have hdelta : transferDelta a
            { source := src, index := nextIndex sRead src,
              destination := a, amount := amt } = amt := by
          simp [transferDelta, hne]
        rw [hdelta]
        have := hnn a ha
        omega
      · have hd1 : dst ≠ a := fun hEq => had hEq.symm
        have hd2 : src ≠ a := fun hEq => has hEq.symm
        have hdelta : transferDelta a
            { source := src, index := nextIndex sRead src,
              destination := dst, amount := amt } = 0 := by
          simp [transferDelta, hd1, hd2]
        rw [hdelta]
        have := hnn a ha
        omega
  · intro a
    rw [outgoing_appendTransfer]
    by_cases hsa : src = a
    · subst hsa
      rw [if_pos rfl]
      have hlen : (outgoing s src ++
          [({ source := src, index := nextIndex sRead src,
              destination := dst, amount := amt } : Transfer)]).length
          = (outgoing s src).length + 1 := by simp
      rw [hlen, List.map_append, hgap src, List.range_succ]
      simp [hidx]
    · rw [if_neg hsa, List.append_nil]
      exact hgap a
  · intro t ht
    simp only [appendTransfer_transfers] at ht
    rcases List.mem_append.mp ht with hold | hnew
    · exact hwf t hold
    · have heq : t = { source := src, index := nextIndex sRead src,
                       destination := dst, amount := amt } := List.mem_singleton.mp hnew
      subst heq
      exact ⟨hsrc, hdst, hne, hamt⟩

theorem reach_ledgerInv {s : LedgerState} (h : Reach s) : LedgerInv s := by
  induction h with
  | init =>
    refine ⟨?_, ?_, ?_, ?_⟩
    · intro a _
      simp [balance, initialState]
    · intro a
      simp [outgoing, initialState]
    · intro t ht
      simp [initialState] at ht
    · simp [initialState]
  | @create s sSvc aid amt hs hsvc hsnap ihs ihsvc =>
    unfold create_user_and_transfer_funds
    by_cases hmem : aid ∈ s.accounts
    · rw [if_pos hmem]
      exact ihs
    · rw [if_neg hmem]
      by_cases hamt : 0 < amt
      · rw [if_pos hamt]
        by_cases htaken :
            indexTaken s SERVICE_ACCOUNT_ID (nextIndex sSvc SERVICE_ACCOUNT_ID) = true
        · rw [if_pos htaken]
          exact ihs
        · rw [if_neg htaken]
          rw [Bool.not_eq_true] at htaken
          have haidsvc : SERVICE_ACCOUNT_ID ≠ aid := fun hEq => hmem (hEq ▸ ihs.svcMem)
          exact ledgerInv_append_step (ledgerInv_addAccount ihs) ihsvc
            (snapshotOf_addAccount hsnap)
            (Finset.mem_insert_of_mem ihs.svcMem) (Finset.mem_insert_self _ _)
            haidsvc hamt (Or.inl rfl) htaken
      · rw [if_neg hamt]
        exact ledgerInv_addAccount ihs
  | @xfer s sd ss r hs hsd hss hsnapd hsnaps ihs ihsd ihss =>
    unfold make_transfer
    by_cases h1 : r.amount ≤ 0
    · rw [if_pos h1]
      exact ihs
    · rw [if_neg h1]
      by_cases h2 : r.source = SERVICE_ACCOUNT_ID
      · rw [if_pos h2]
        exact ihs
      · rw [if_neg h2]
        by_cases h3 : r.source = r.destination
        · rw [if_pos h3]
          exact ihs
        · rw [if_neg h3]
          by_cases h4 : r.destination ∈ sd.accounts
          · rw [if_neg (not_not_intro h4)]
            by_cases h5 : r.source ∈ ss.accounts
            · rw [if_neg (not_not_intro h5)]
              by_cases h6 : balance ss r.source < r.amount
              · rw [if_pos h6]
                exact ihs
              · rw [if_neg h6]
                by_cases h7 : indexTaken s r.source (nextIndex ss r.source) = true
                · rw [if_pos h7]
                  exact ihs
                · rw [if_neg h7]
                  rw [Bool.not_eq_true] at h7
                  exact ledgerInv_append_step ihs ihss hsnaps
                    (hsnaps.1 h5) (hsnapd.1 h4) h3 (by omega)
                    (Or.inr (by omega)) h7
            · rw [if_pos h5]
              exact ihs
          · rw [if_pos h4]
            exact ihs

theorem sum_transferDelta {t : Transfer} {A : Finset AccountId}
    (hs : t.source ∈ A) (hd : t.destination ∈ A) :
    A.sum (fun a => transferDelta a t) = 0 := by
  unfold transferDelta
  rw [Finset.sum_sub_distrib]
  rw [Finset.sum_ite_eq, Finset.sum_ite_eq]
  simp [hs, hd]

theorem sum_balance_list {A : Finset AccountId} :
    ∀ l : List Transfer, (∀ t ∈ l, t.source ∈ A ∧ t.destination ∈ A) →
      A.sum (fun a => (l.map (transferDelta a)).sum) = 0 := by
  intro l
  induction l with
  | nil =>
    intro _
    simp
  | cons t ts ih =>
    intro h
    have ht := h t (List.mem_cons_self t ts)
    have hts : ∀ u ∈ ts, u.source ∈ A ∧ u.destination ∈ A :=
      fun u hu => h u (List.mem_cons_of_mem t hu)
    simp only [List.map_cons, List.sum_cons]
    rw [Finset.sum_add_distrib, sum_transferDelta ht.1 ht.2, ih hts, add_zero]

theorem snap_init_st1 : SnapshotOf initialState st1 :=
  ⟨by decide, st1.transfers, by decide⟩

theorem reach_st1 : Reach st1 :=
  Reach.create Reach.init Reach.init (snapshotOf_refl _)

theorem reach_st2 : Reach st2 :=
  Reach.create reach_st1 Reach.init snap_init_st1

theorem reach_st3 : Reach st3 :=
  Reach.xfer reach_st2 reach_st2 reach_st2 (snapshotOf_refl _) (snapshotOf_refl _)

/-- C3: in every reachable committed ledger state — any sequence of committed
create-account and transfer operations, arbitrary concurrent interleavings
included — the derived balance of every account other than the service
account is greater than or equal to zero. -/
theorem nonservice_balance_nonneg (s : LedgerState) (a : AccountId)
    (h : Reach s) (ha : a ≠ SERVICE_ACCOUNT_ID) : 0 ≤ balance s a :=
  (reach_ledgerInv h).nonneg a ha

theorem nonservice_balance_nonneg_witness :
    balance st3 2 = 30 ∧ 0 ≤ balance st3 2 :=
  ⟨by decide, nonservice_balance_nonneg st3 2 reach_st3 (by decide)⟩

/-- C4: in every reachable committed ledger state the sum of the derived
balances over all accounts, the service account included, is exactly zero;
since the reachability relation closes over every committed operation
(provisioning with any initial balance, and every transfer), each such
operation preserves the zero sum. -/
theorem total_balance_zero (s : LedgerState) (h : Reach s) :
    s.accounts.sum (fun a => balance s a) = 0 := by
  have hwf := (reach_ledgerInv h).wf
  exact sum_balance_list s.transfers
    (fun t ht => ⟨(hwf t ht).1, (hwf t ht).2.1⟩)

theorem total_balance_zero_witness :
    st3.accounts.sum (fun a => balance st3 a) = 0 :=
  total_balance_zero st3 reach_st3

/-- C5: in every reachable committed ledger state, for every source account
the per-source indexes of its committed outgoing transfers, listed in commit
order, are exactly 0, 1, ..., n-1 — no gaps, no duplicates, strictly
increasing in commit order. -/
theorem per_source_index_gapless (s : LedgerState) (a : AccountId)
    (h : Reach s) :
    (outgoing s a).map Transfer.index = List.range (outgoing s a).length :=
  (reach_ledgerInv h).gapless a

theorem per_source_index_gapless_witness :
    (outgoing st3 SERVICE_ACCOUNT_ID).map Transfer.index =
      List.range (outgoing st3 SERVICE_ACCOUNT_ID).length :=
  per_source_index_gapless st3 SERVICE_ACCOUNT_ID reach_st3

/-- C1 fails on the code: with the source metadata taken from snapshot st2
(next index 0 for account 1) but a concurrent committer having already taken
(1, 0) in the commit-time state stConf, make_transfer surfaces the raised
uniqueness violation as the generic internal error at once — no retry, no
transient-failure classification — although re-running the whole validation
from the fresh state (second conjunct) would succeed. -/
theorem conflict_no_retry_counterexample :
    make_transfer st2 st2 stConf { source := 1, destination := 2, amount := 30 } =
      (stConf, .err .internalError) ∧
    make_transfer stConf stConf stConf { source := 1, destination := 2, amount := 30 } =
      (appendTransfer stConf { source := 1, index := 1, destination := 2, amount := 30 },
       .ok { source_balance := 60, destination_balance := 40 }) := by
  decide

/-- C1 amended: for every transfer request that passes validation against the
source-metadata snapshot but whose (source, index) pair is already taken in
the commit-time state, make_transfer returns the generic internal-error
outcome immediately with the committed state unchanged: the code performs no
retry from a fresh snapshot and surfaces no dedicated transient-failure
error. -/
theorem make_transfer_conflict_internal (sd ss sc : LedgerState)
    (r : TransferRequest)
    (h1 : 0 < r.amount) (h2 : r.source ≠ SERVICE_ACCOUNT_ID)
    (h3 : r.source ≠ r.destination)
    (h4 : r.destination ∈ sd.accounts) (h5 : r.source ∈ ss.accounts)
    (h6 : r.amount ≤ balance ss r.source)
    (h7 : indexTaken sc r.source (nextIndex ss r.source) = true) :
    make_transfer sd ss sc r = (sc, .err .internalError) := by
  unfold make_transfer
  rw [if_neg (not_le.mpr h1), if_neg h2, if_neg h3,
      if_neg (not_not_intro h4), if_neg (not_not_intro h5),
      if_neg (not_lt.mpr h6), if_pos h7]

theorem make_transfer_conflict_internal_witness :
    make_transfer st2 st2 stConf { source := 1, destination := 2, amount := 30 } =
      (stConf, .err .internalError) :=
  make_transfer_conflict_internal st2 st2 stConf
    { source := 1, destination := 2, amount := 30 }
    (by decide) (by decide) (by decide) (by decide) (by decide) (by decide) (by decide)

/-- C2 fails on the code: the destination-existence check and the source
metadata fetch are two sequential single-account reads that can observe
different committed states within one validation pass; here the first read
observes st1 (before account 2 was created) while the second observes st2,
so the call rejects with destinationNotFound, although the same request
evaluated against the single snapshot st2 (second conjunct) commits. The
destination metadata is never fetched at all. -/
theorem sequential_reads_counterexample :
    make_transfer st1 st2 st2 { source := 1, destination := 2, amount := 30 } =
      (st2, .err .destinationNotFound) ∧
    make_transfer st2 st2 st2 { source := 1, destination := 2, amount := 30 } =
      (appendTransfer st2 { source := 1, index := 0, destination := 2, amount := 30 },
       .ok { source_balance := 70, destination_balance := 30 }) := by
  decide

/-- C2 amended: the code performs two sequential single-account reads rather
than one batched snapshot: the outcome depends on the first read-state only
through the destination-existence bit and on the second read-state only
through the source account metadata (existence, balance and next index);
destination metadata is never fetched, and the two reads may observe
different committed states. -/
theorem make_transfer_sequential_reads (sd sd' ss ss' sc : LedgerState)
    (r : TransferRequest)
    (hd : (r.destination ∈ sd.accounts) ↔ (r.destination ∈ sd'.accounts))
    (hs : (r.source ∈ ss.accounts) ↔ (r.source ∈ ss'.accounts))
    (hb : balance ss r.source = balance ss' r.source)
    (hn : nextIndex ss r.source = nextIndex ss' r.source) :
    make_transfer sd ss sc r = make_transfer sd' ss' sc r := by
  unfold make_transfer
  rw [hb, hn]
  by_cases h4 : r.destination ∈ sd'.accounts
  · rw [if_neg (not_not_intro (hd.mpr h4)), if_neg (not_not_intro h4)]
    by_cases h5 : r.source ∈ ss'.accounts
    · rw [if_neg (not_not_intro (hs.mpr h5)), if_neg (not_not_intro h5)]
    · rw [if_pos (fun hc => h5 (hs.mp hc)), if_pos h5]
  · rw [if_pos (fun hc => h4 (hd.mp hc)), if_pos h4]

theorem make_transfer_sequential_reads_witness :
    make_transfer st2 st2 st2 { source := 1, destination := 2, amount := 30 } =
      make_transfer stConf st2 st2 { source := 1, destination := 2, amount := 30 } :=
  make_transfer_sequential_reads st2 stConf st2 st2 st2
    { source := 1, destination := 2, amount := 30 }
    (by decide) (by decide) (by decide) (by decide)

/-- C6: make_transfer applies its checks in the stated order and fails with
the kind of the first violated one; the three precondition failures are
independent of every storage state (no storage access is needed to produce
them), the not-found and insufficient-funds rejections read storage but
mutate nothing, and every failure leaves the committed state unchanged, so
no transfer record is created on any failure. -/
theorem make_transfer_check_order (sd ss sc : LedgerState) (r : TransferRequest) :
    (r.amount ≤ 0 →
      make_transfer sd ss sc r = (sc, .err .invalidAmount)) ∧
    (0 < r.amount → r.source = SERVICE_ACCOUNT_ID →
      make_transfer sd ss sc r = (sc, .err .serviceAccountAsSource)) ∧
    (0 < r.amount → r.source ≠ SERVICE_ACCOUNT_ID → r.source = r.destination →
      make_transfer sd ss sc r = (sc, .err .selfTransfer)) ∧
    (0 < r.amount → r.source ≠ SERVICE_ACCOUNT_ID → r.source ≠ r.destination →
      r.destination ∉ sd.accounts →
      make_transfer sd ss sc r = (sc, .err .destinationNotFound)) ∧
    (0 < r.amount → r.source ≠ SERVICE_ACCOUNT_ID → r.source ≠ r.destination →
      r.destination ∈ sd.accounts → r.source ∉ ss.accounts →
      make_transfer sd ss sc r = (sc, .err .sourceNotFound)) ∧
    (0 < r.amount → r.source ≠ SERVICE_ACCOUNT_ID → r.source ≠ r.destination →
      r.destination ∈ sd.accounts → r.source ∈ ss.accounts →
      balance ss r.source < r.amount →
      make_transfer sd ss sc r = (sc, .err .insufficientFunds)) ∧
    (∀ e, (make_transfer sd ss sc r).2 = .err e → (make_transfer sd ss sc r).1 = sc) := by
  refine ⟨?_, ?_, ?_, ?_, ?_, ?_, ?_⟩
  · intro h1
    unfold make_transfer
    rw [if_pos h1]
  · intro h1 h2
    unfold make_transfer
    rw [if_neg (not_le.mpr h1), if_pos h2]
  · intro h1 h2 h3
    unfold make_transfer
    rw [if_neg (not_le.mpr h1), if_neg h2, if_pos h3]
  · intro h1 h2 h3 h4
    unfold make_transfer
    rw [if_neg (not_le.mpr h1), if_neg h2, if_neg h3, if_pos h4]
  · intro h1 h2 h3 h4 h5
    unfold make_transfer
    rw [if_neg (not_le.mpr h1), if_neg h2, if_neg h3,
        if_neg (not_not_intro h4), if_pos h5]
  · intro h1 h2 h3 h4 h5 h6
    unfold make_transfer
    rw [if_neg (not_le.mpr h1), if_neg h2, if_neg h3,
        if_neg (not_not_intro h4), if_neg (not_not_intro h5), if_pos h6]
  · intro e he
    unfold make_transfer at he ⊢
    split_ifs at he ⊢
    any_goals rfl

theorem make_transfer_check_order_witness :
    make_transfer st2 st2 st2 { source := 1, destination := 2, amount := 0 } =
      (st2, .err .invalidAmount) ∧
    make_transfer st2 st2 st2 { source := 1, destination := 1, amount := 5 } =
      (st2, .err .selfTransfer) ∧
    make_transfer st2 st2 st2 { source := 1, destination := 2, amount := 101 } =
      (st2, .err .insufficientFunds) :=
  ⟨(make_transfer_check_order st2 st2 st2
      { source := 1, destination := 2, amount := 0 }).1 (by decide),
   (make_transfer_check_order st2 st2 st2
      { source := 1, destination := 1, amount := 5 }).2.2.1
      (by decide) (by decide) (by decide),
   (make_transfer_check_order st2 st2 st2
      { source := 1, destination := 2, amount := 101 }).2.2.2.2.2.1
      (by decide) (by decide) (by decide) (by decide) (by decide) (by decide)⟩

/-- C9 is violated by the code: a successful make_transfer performs two
post-commit metadata reads and returns a TransferResult body carrying both
new balances (HTTP 200 with body), whereas the spec — and the tests in
test.py, which assert status 204 on POST /transfers — require success with
no body and no post-commit read; evaluated here at a concrete successful
request. -/
theorem make_transfer_success_returns_body :
    make_transfer st2 st2 st2 { source := 1, destination := 2, amount := 40 } =
      (appendTransfer st2 { source := 1, index := 0, destination := 2, amount := 40 },
       .ok { source_balance := 60, destination_balance := 40 }) := by
  decide

/-- C7: the provisioning contract, stated for a sequential call (all storage
reads observing the same committed state s): a negative initial balance fails
with the negativeBalance kind and an existing id fails with alreadyExists,
both leaving the state — hence every existing balance — unchanged; a zero
initial balance creates the account and appends no transfer; a positive one
creates the account together with exactly one seeding transfer from the
service account to the new account for that amount, at the service account
current next index. -/
theorem create_new_account_contract (s : LedgerState) (aid : AccountId) (bal : Int) :
    (bal < 0 →
      create_new_account s s s aid bal = (s, .err .negativeBalance)) ∧
    (0 ≤ bal → aid ∈ s.accounts →
      create_new_account s s s aid bal = (s, .err .alreadyExists)) ∧
    (aid ∉ s.accounts → bal = 0 →
      create_new_account s s s aid bal =
        (addAccount s aid, .ok { account_id := aid, balance := balance s aid })) ∧
    (aid ∉ s.accounts → 0 < bal →
      create_new_account s s s aid bal =
        (appendTransfer (addAccount s aid)
          { source := SERVICE_ACCOUNT_ID, index := nextIndex s SERVICE_ACCOUNT_ID,
            destination := aid, amount := bal },
         .ok { account_id := aid,
               balance := balance (appendTransfer (addAccount s aid)
                 { source := SERVICE_ACCOUNT_ID, index := nextIndex s SERVICE_ACCOUNT_ID,
                   destination := aid, amount := bal }) aid })) := by
  refine ⟨?_, ?_, ?_, ?_⟩
  · intro h1
    unfold create_new_account
    rw [if_pos h1]
  · intro h1 h2
    unfold create_new_account
    rw [if_neg (not_lt.mpr h1), if_pos h2]
  · intro h1 h2
    subst h2
    unfold create_new_account create_user_and_transfer_funds
    rw [if_neg (by omega : ¬ (0 : Int) < 0), if_neg h1, if_neg h1,
        if_neg (by omega : ¬ (0 : Int) < 0)]
    rfl
  · intro h1 h2
    unfold create_new_account create_user_and_transfer_funds
    rw [if_neg (not_lt.mpr (le_of_lt h2)), if_neg h1, if_neg h1, if_pos h2,
        if_neg (by rw [indexTaken_nextIndex_self s SERVICE_ACCOUNT_ID]; exact Bool.false_ne_true)]

theorem create_new_account_contract_witness :
    create_new_account st2 st2 st2 3 (-1) = (st2, .err .negativeBalance) ∧
    create_new_account st2 st2 st2 2 5 = (st2, .err .alreadyExists) ∧
    create_new_account st2 st2 st2 3 0 =
      (addAccount st2 3, .ok { account_id := 3, balance := balance st2 3 }) ∧
    create_new_account st2 st2 st2 3 7 =
      (appendTransfer (addAccount st2 3)
        { source := SERVICE_ACCOUNT_ID, index := nextIndex st2 SERVICE_ACCOUNT_ID,
          destination := 3, amount := 7 },
       .ok { account_id := 3,
             balance := balance (appendTransfer (addAccount st2 3)
               { source := SERVICE_ACCOUNT_ID, index := nextIndex st2 SERVICE_ACCOUNT_ID,
                 destination := 3, amount := 7 }) 3 }) :=
  ⟨(create_new_account_contract st2 3 (-1)).1 (by decide),
   (create_new_account_contract st2 2 5).2.1 (by decide) (by decide),
   (create_new_account_contract st2 3 0).2.2.1 (by decide) rfl,
   (create_new_account_contract st2 3 7).2.2.2 (by decide) (by decide)⟩

/-- C8: the account row and its seeding transfer commit atomically. Whenever
create_user_and_transfer_funds reports a failure the committed state is
exactly the input state, so neither the account nor any transfer persists;
whenever it succeeds with a positive amount the resulting state contains both
the new account and its seeding transfer; and in every reachable state every
committed transfer references only existing accounts, so no committed seed
transfer can exist without its account. -/
theorem provisioning_atomicity :
    (∀ (sSvc sc : LedgerState) (aid : AccountId) (amt : Int) (e : CreateError),
      (create_user_and_transfer_funds sSvc sc aid amt).2 = some e →
      (create_user_and_transfer_funds sSvc sc aid amt).1 = sc) ∧
    (∀ (sSvc sc : LedgerState) (aid : AccountId) (amt : Int),
      0 < amt → (create_user_and_transfer_funds sSvc sc aid amt).2 = none →
      aid ∈ (create_user_and_transfer_funds sSvc sc aid amt).1.accounts ∧
      { source := SERVICE_ACCOUNT_ID, index := nextIndex sSvc SERVICE_ACCOUNT_ID,
        destination := aid, amount := amt } ∈
        (create_user_and_transfer_funds sSvc sc aid amt).1.transfers) ∧
    (∀ s, Reach s → ∀ t ∈ s.transfers,
      t.source ∈ s.accounts ∧ t.destination ∈ s.accounts) := by
  refine ⟨?_, ?_, ?_⟩
  · intro sSvc sc aid amt e he
    unfold create_user_and_transfer_funds at he ⊢
    split_ifs at he ⊢
    any_goals rfl
  · intro sSvc sc aid amt hamt hn
    unfold create_user_and_transfer_funds at hn ⊢
    rw [if_pos hamt] at hn ⊢
    by_cases hmem : aid ∈ sc.accounts
    · rw [if_pos hmem] at hn
      cases hn
    · rw [if_neg hmem] at hn ⊢
      by_cases htaken :
          indexTaken sc SERVICE_ACCOUNT_ID (nextIndex sSvc SERVICE_ACCOUNT_ID) = true
      · rw [if_pos htaken] at hn
        cases hn
      · rw [if_neg htaken]
        constructor
        · exact Finset.mem_insert_self _ _
        · simp
  · intro s hs t ht
    have hwf := (reach_ledgerInv hs).wf t ht
    exact ⟨hwf.1, hwf.2.1⟩

theorem provisioning_atomicity_witness :
    1 ∈ st1.accounts ∧
    ({ source := SERVICE_ACCOUNT_ID, index := nextIndex initialState SERVICE_ACCOUNT_ID,
       destination := 1, amount := 100 } : Transfer) ∈ st1.transfers :=
  provisioning_atomicity.2.1 initialState initialState 1 100 (by decide) (by decide)

/-- C10: in a sequential execution (all storage reads observing the same
committed state s) a successful make_transfer returns a body whose
source_balance is the pre-call source balance minus the transferred amount
and whose destination_balance is the pre-call destination balance plus the
amount, both read back at the single commit timestamp of the appended row. -/
theorem make_transfer_success_balances (s s' : LedgerState) (r : TransferRequest)
    (res : TransferResult)
    (h : make_transfer s s s r = (s', TransferOutcome.ok res)) :
    res.source_balance = balance s r.source - r.amount ∧
    res.destination_balance = balance s r.destination + r.amount := by
  unfold make_transfer at h
  split_ifs at h with h1 h2 h3 h4 h5 h6 h7
  any_goals exact TransferOutcome.noConfusion (congrArg Prod.snd h)
  simp only [Prod.mk.injEq, TransferOutcome.ok.injEq] at h
  obtain ⟨hstate, hres⟩ := h
  subst hres
  constructor
  · show balance (appendTransfer s
        { source := r.source, index := nextIndex s r.source,
          destination := r.destination, amount := r.amount }) r.source =
      balance s r.source - r.amount
    rw [balance_appendTransfer]
    have hdne : r.destination ≠ r.source := fun hEq => h3 hEq.symm
    have hdel : transferDelta r.source
        { source := r.source, index := nextIndex s r.source,
          destination := r.destination, amount := r.amount } = -r.amount := by
      simp [transferDelta, hdne]
    rw [hdel]
    omega
  · show balance (appendTransfer s
        { source := r.source, index := nextIndex s r.source,
          destination := r.destination, amount := r.amount }) r.destination =
      balance s r.destination + r.amount
    rw [balance_appendTransfer]
    have hdel : transferDelta r.destination
        { source := r.source, index := nextIndex s r.source,
          destination := r.destination, amount := r.amount } = r.amount := by
      simp [transferDelta, h3]
    rw [hdel]

theorem make_transfer_success_balances_witness :
    (70 : Int) = balance st2 1 - 30 ∧ (30 : Int) = balance st2 2 + 30 :=
  make_transfer_success_balances st2
    (appendTransfer st2 { source := 1, index := 0, destination := 2, amount := 30 })
    { source := 1, destination := 2, amount := 30 }
    { source_balance := 70, destination_balance := 30 } (by decide)
